import Mathlib

/-!
Shallow embedding of the metadata-driven CRUD core of the delivery-platform
console application (files `model.py`, `orm_models.py`, `controllers.py`,
`views.py`).  Values are embedded as an inductive `Value` type (Python
`None`/`int`/`float`/`str`; a float is carried exactly as the scaled
integer its decimal literal denotes), rows as ordered association
lists from column name to value, and the
backing relational store as a structure holding the five tables' row
lists together with the serial-sequence counters the database keeps for
the auto-increment primary keys.
-/

/-- Database value domain: the Python value kinds that flow through the
CRUD layer (`None`, `int`, `float`, `str`).  A float is modelled exactly
by the decimal literal it was parsed from, as a scaled integer
`m / 10 ^ e`; every text the application's float parser accepts denotes
such a number. -/
inductive Value where
  | vNull
  | vInt (n : Int)
  | vFloat (m : Int) (e : Nat)
  | vStr (s : String)
deriving DecidableEq, Repr

/-- Decimal value of a digit character. -/
def digitVal (c : Char) : Nat := c.toNat - 48

/-- Whitespace in the sense of Python's `str.strip`. -/
def isPySpace (c : Char) : Bool :=
  c == ' ' || c == '\t' || c == '\n' || c == '\r' || c == '\x0b' || c == '\x0c'

/-- Embedding of Python `s.strip()`: whitespace dropped from both ends. -/
def pyStrip (s : String) : String :=
  String.mk (((s.toList.dropWhile isPySpace).reverse.dropWhile isPySpace).reverse)

/-- ASCII lowering of one character (the alphabet the schema's type
names and transport values use). -/
def lowerChar (c : Char) : Char :=
  if 'A' ≤ c ∧ c ≤ 'Z' then Char.ofNat (c.toNat + 32) else c

/-- Embedding of Python `s.lower()` on ASCII text. -/
def pyLower (s : String) : String :=
  String.mk (s.toList.map lowerChar)

/-- Value of a nonempty all-digit character list, `none` otherwise. -/
def decNat : List Char → Option Nat
  | [] => none
  | cs =>
    if cs.all Char.isDigit then
      some (cs.foldl (fun a c => a * 10 + digitVal c) 0)
    else none

/-- Whether `pre` is a prefix of `l`. -/
def charsPrefix : List Char → List Char → Bool
  | [], _ => true
  | _ :: _, [] => false
  | a :: as, b :: bs => a == b && charsPrefix as bs

/-- Whether `needle` occurs as a contiguous run inside `hay`. -/
def containsChars (needle : List Char) : List Char → Bool
  | [] => needle.isEmpty
  | c :: rest => charsPrefix needle (c :: rest) || containsChars needle rest

/-- Substring test, embedding the Python expression `needle in hay`. -/
def containsStr (needle hay : String) : Bool :=
  containsChars needle.toList hay.toList

/-- Embedding of Python `int(raw)` on decimal literals: surrounding
whitespace is stripped, an optional sign is followed by at least one
digit; any other text raises `ValueError` (here `none`). -/
def parsePyInt (s : String) : Option Int :=
  match (pyStrip s).toList with
  | '-' :: rest => (decNat rest).map (fun n => -(n : Int))
  | '+' :: rest => (decNat rest).map (fun n => (n : Int))
  | cs => (decNat cs).map (fun n => (n : Int))

/-- Embedding of Python `float(raw)` on plain decimal notation: optional
sign, integer part and optional fractional part after one dot, at least
one digit overall; anything else raises `ValueError` (here `none`).
The exact parsed number is returned as a scaled integer `(m, e)`
denoting `m / 10 ^ e`.  (Exponent and special forms such as `inf` are
outside the fragment the application ever feeds to it and are not
modelled.) -/
def parsePyFloat (s : String) : Option (Int × Nat) :=
  let core : List Char → Option (Int × Nat) := fun cs =>
    let (ip, rest) := cs.span Char.isDigit
    match rest with
    | [] => (decNat ip).map (fun n => ((n : Int), 0))
    | '.' :: fp =>
      if fp.all Char.isDigit && (!ip.isEmpty || !fp.isEmpty) then
        let ipv : Nat := ip.foldl (fun a c => a * 10 + digitVal c) 0
        let fpv : Nat := fp.foldl (fun a c => a * 10 + digitVal c) 0
        some (((ipv * 10 ^ fp.length + fpv : Nat) : Int), fp.length)
      else none
    | _ => none
  match (pyStrip s).toList with
  | '-' :: rest => (core rest).map (fun p => (-p.1, p.2))
  | '+' :: rest => core rest
  | cs => core cs

/-- Day count of a month, as Python's `datetime` constructor validates
(proleptic Gregorian calendar with leap years). -/
def daysInMonth (y m : Nat) : Nat :=
  if m = 2 then
    if (y % 4 = 0 ∧ y % 100 ≠ 0) ∨ y % 400 = 0 then 29 else 28
  else if m = 4 ∨ m = 6 ∨ m = 9 ∨ m = 11 then 30 else 31

/-- Reads a calendar field the way CPython's `_strptime` regex
alternation does: a two-digit read is taken when both characters are
digits and `ok2` accepts the digit pair, otherwise a single digit
accepted by `ok1` is taken. -/
def parse2or1 (ok2 : Nat → Nat → Bool) (ok1 : Nat → Bool) :
    List Char → Option (Nat × List Char)
  | c1 :: c2 :: rest =>
    if c1.isDigit && c2.isDigit && ok2 (digitVal c1) (digitVal c2) then
      some (digitVal c1 * 10 + digitVal c2, rest)
    else if c1.isDigit && ok1 (digitVal c1) then
      some (digitVal c1, c2 :: rest)
    else none
  | [c1] =>
    if c1.isDigit && ok1 (digitVal c1) then some (digitVal c1, []) else none
  | [] => none

/-- Reads exactly four digits (the `%Y` directive). -/
def parseYear4 : List Char → Option (Nat × List Char)
  | a :: b :: c :: d :: rest =>
    if a.isDigit && b.isDigit && c.isDigit && d.isDigit then
      some (digitVal a * 1000 + digitVal b * 100 + digitVal c * 10 + digitVal d, rest)
    else none
  | _ => none

/-- Consumes one expected literal character. -/
def parseLit (ch : Char) : List Char → Option (List Char)
  | c :: rest => if c == ch then some rest else none
  | [] => none

/-- Month field `%m`: `1[0-2]|0[1-9]|[1-9]`. -/
def parseMonth : List Char → Option (Nat × List Char) :=
  parse2or1 (fun d1 d2 => (d1 == 1 && d2 ≤ 2) || (d1 == 0 && 1 ≤ d2))
    (fun d1 => 1 ≤ d1)

/-- Day field `%d`: `3[01]|[12]\d|0[1-9]|[1-9]`. -/
def parseDay : List Char → Option (Nat × List Char) :=
  parse2or1
    (fun d1 d2 => (d1 == 3 && d2 ≤ 1) || d1 == 1 || d1 == 2 || (d1 == 0 && 1 ≤ d2))
    (fun d1 => 1 ≤ d1)

/-- Hour field `%H`: `2[0-3]|[0-1]\d|\d`. -/
def parseHour : List Char → Option (Nat × List Char) :=
  parse2or1 (fun d1 d2 => (d1 == 2 && d2 ≤ 3) || d1 ≤ 1) (fun _ => true)

/-- Minute field `%M`: `[0-5]\d|\d`. -/
def parseMinute : List Char → Option (Nat × List Char) :=
  parse2or1 (fun d1 _ => d1 ≤ 5) (fun _ => true)

/-- Second field `%S`: `6[0-1]|[0-5]\d|\d` (leap seconds are admitted by
the regex but rejected by the `datetime` constructor). -/
def parseSecond : List Char → Option (Nat × List Char) :=
  parse2or1 (fun d1 d2 => d1 ≤ 5 || (d1 == 6 && d2 ≤ 1)) (fun _ => true)

/-- Calendar validity enforced by the `datetime`/`date` constructor:
year at least 1, day within the month, seconds below 60. -/
def calendarOk (y mo da : Nat) : Bool :=
  1 ≤ y && 1 ≤ da && da ≤ daysInMonth y mo

/-- Embedding of `datetime.strptime(value, "%Y-%m-%d")`, returning the
calendar-validated components. -/
def strptimeDate (cs : List Char) : Option (Nat × Nat × Nat) := do
  let (y, r1) ← parseYear4 cs
  let r2 ← parseLit '-' r1
  let (mo, r3) ← parseMonth r2
  let r4 ← parseLit '-' r3
  let (da, r5) ← parseDay r4
  if r5.isEmpty && calendarOk y mo da then
    some (y, mo, da)
  else none

/-- Embedding of `datetime.strptime(value, "%Y-%m-%d %H:%M:%S")`. -/
def strptimeDateTime (cs : List Char) :
    Option (Nat × Nat × Nat × Nat × Nat × Nat) := do
  let (y, mo, da, r5) ← (do
    let (y, r1) ← parseYear4 cs
    let r2 ← parseLit '-' r1
    let (mo, r3) ← parseMonth r2
    let r4 ← parseLit '-' r3
    let (da, r5) ← parseDay r4
    some (y, mo, da, r5))
  let r6 ← parseLit ' ' r5
  let (h, r7) ← parseHour r6
  let r8 ← parseLit ':' r7
  let (mi, r9) ← parseMinute r8
  let r10 ← parseLit ':' r9
  let (s, r11) ← parseSecond r10
  if r11.isEmpty && calendarOk y mo da && h ≤ 23 && mi ≤ 59 && s ≤ 59 then
    some (y, mo, da, h, mi, s)
  else none

/-- Zero-padded two-digit rendering. -/
def pad2 (n : Nat) : String :=
  if n < 10 then "0" ++ toString n else toString n

/-- Zero-padded four-digit year as `date.isoformat` prints it. -/
def pad4 (n : Nat) : String :=
  if n < 10 then "000" ++ toString n
  else if n < 100 then "00" ++ toString n
  else if n < 1000 then "0" ++ toString n
  else toString n

namespace Model

/-- Embedding of `Model.parse_date` (`model.py`): text longer than ten
characters is parsed with format `%Y-%m-%d %H:%M:%S` and re-rendered by
`strftime`, otherwise with `%Y-%m-%d` and re-rendered by
`date.isoformat`; parse failure yields `None`. -/
def parse_date (value : String) : Option String :=
  if value.length > 10 then
    match strptimeDateTime value.toList with
    | some (y, mo, da, h, mi, s) =>
      some (toString y ++ "-" ++ pad2 mo ++ "-" ++ pad2 da ++ " " ++
        pad2 h ++ ":" ++ pad2 mi ++ ":" ++ pad2 s)
    | none => none
  else
    match strptimeDate value.toList with
    | some (y, mo, da) => some (pad4 y ++ "-" ++ pad2 mo ++ "-" ++ pad2 da)
    | none => none

end Model

instance {ε α : Type _} [DecidableEq ε] [DecidableEq α] : DecidableEq (Except ε α) :=
  fun x y =>
  match x, y with
  | .ok a, .ok b =>
    if h : a = b then isTrue (h ▸ rfl) else isFalse (fun hh => h (Except.ok.inj hh))
  | .error a, .error b =>
    if h : a = b then isTrue (h ▸ rfl) else isFalse (fun hh => h (Except.error.inj hh))
  | .ok _, .error _ => isFalse (fun hh => Except.noConfusion hh)
  | .error _, .ok _ => isFalse (fun hh => Except.noConfusion hh)

/-- Typed failures of the casting layer: `invalidNumber` embeds the
`ValueError` that `int()`/`float()` raise, `invalidDate` is the
spec's error kind for rejected temporal text. -/
inductive CastError where
  | invalidNumber
  | invalidDate
deriving DecidableEq, Repr

namespace Model

/-- Embedding of `Model.cast_value` (`model.py`): `None` passes through
as the null value; the declared type string is lowercased; a type whose
name contains `int` or `serial` parses the text as an integer; a type
whose name is exactly one of `real`, `double precision`, `numeric`,
`decimal` parses it as a float; a type whose name contains `timestamp`
or `date` passes the text through; everything else passes through. -/
def cast_value (raw : Option String) (dtype : String) : Except CastError Value :=
  match raw with
  | none => .ok .vNull
  | some r =>
    let d := pyLower dtype
    if containsStr "int" d || containsStr "serial" d then
      match parsePyInt r with
      | some n => .ok (.vInt n)
      | none => .error .invalidNumber
    else if d = "real" ∨ d = "double precision" ∨ d = "numeric" ∨ d = "decimal" then
      match parsePyFloat r with
      | some p => .ok (.vFloat p.1 p.2)
      | none => .error .invalidNumber
    else if containsStr "timestamp" d || containsStr "date" d then
      .ok (.vStr r)
    else
      .ok (.vStr r)

end Model

namespace Views

/-- Embedding of `views.prompt_nullable`: the typed line is stripped and
an empty result stands for the absent (null) input. -/
def prompt_nullable (s : String) : Option String :=
  if pyStrip s = "" then none else some (pyStrip s)

end Views

/-- Per-field outcome kinds of the insert prompt loop in
`Controller.action_insert`. -/
inductive FieldError where
  | nullNotAllowed
  | castFailed (e : CastError)
deriving DecidableEq, Repr

namespace Controller

/-- Embedding of the per-column body of `Controller.action_insert`
(`controllers.py`): the prompted text is normalised by
`views.prompt_nullable`; an absent value is accepted as null only when
the column is nullable and is rejected otherwise; a present value is
cast by `Model.cast_value`. -/
def insert_field (input : String) (dtype : String) (nullable : Bool) :
    Except FieldError Value :=
  match Views.prompt_nullable input with
  | none => if nullable then .ok .vNull else .error .nullNotAllowed
  | some raw =>
    match Model.cast_value (some raw) dtype with
    | .ok v => .ok v
    | .error e => .error (.castFailed e)

end Controller

/-- Row mapping: the ordered column-name/value dictionary the model
layer exchanges with the controller (`Model._to_dict` output and the
`data`/`updates` inputs). -/
abbrev Row : Type := List (String × Value)

/-- Dictionary lookup of a key (first occurrence). -/
def getF (r : Row) (k : String) : Option Value :=
  match r with
  | [] => none
  | kv :: rest => if kv.1 = k then some kv.2 else getF rest k

/-- Attribute read as the database sees it: a column absent from the
mapping reads as SQL `NULL`. -/
def getD (r : Row) (k : String) : Value :=
  (getF r k).getD .vNull

/-- Dictionary write (`setattr`): replaces the first binding of the key
in place, or appends a new binding. -/
def setF (r : Row) (k : String) (v : Value) : Row :=
  match r with
  | [] => [(k, v)]
  | kv :: rest => if kv.1 = k then (k, v) :: rest else kv :: setF rest k v

/-- SQL equality used by joins and foreign-key matching: `NULL` compares
unequal to everything, including itself. -/
def sqlEqV (a b : Value) : Bool :=
  match a, b with
  | .vNull, _ => false
  | _, .vNull => false
  | x, y => decide (x = y)

/-- Static description of one registered table, read off the ORM
declarations in `orm_models.py`: primary-key attribute, whether the
primary key is a database-assigned serial (`autoincrement`), the column
attributes with their nullability, the relationship attribute names
(which `hasattr` also sees on a mapped object), and the foreign-key
edges `(column, parent table)` enforced by the schema. -/
structure TableInfo where
  pk : String
  hasId : Bool
  cols : List (String × Bool)
  rels : List String
  fks : List (String × String)
deriving DecidableEq, Repr

/-- Attribute names of the mapped entity (columns and relationships),
the set `hasattr` tests membership of. -/
def TableInfo.attrs (ti : TableInfo) : List String :=
  ti.cols.map (fun c => c.1) ++ ti.rels

/-- The `client` entity of `orm_models.py`. -/
def clientTI : TableInfo :=
  { pk := "client_id", hasId := true
    cols := [("client_id", false), ("client_name", false), ("phone_number", true)]
    rels := ["orderings"], fks := [] }

/-- The `courier` entity. -/
def courierTI : TableInfo :=
  { pk := "courier_id", hasId := true
    cols := [("courier_id", false), ("courier_name", false), ("transport", true)]
    rels := ["orderings"], fks := [] }

/-- The `Order` entity. -/
def orderTI : TableInfo :=
  { pk := "order_id", hasId := true
    cols := [("order_id", false), ("total_amount", false), ("order_time", false)]
    rels := ["orderings", "dish"], fks := [] }

/-- The `Dish` entity: its primary key is simultaneously a foreign key
into `Order` and is never database-assigned. -/
def dishTI : TableInfo :=
  { pk := "dish_id", hasId := false
    cols := [("dish_id", false), ("total_amount", false), ("dish_price", false)]
    rels := ["order"], fks := [("dish_id", "Order")] }

/-- The `ordering` join entity with its three foreign keys. -/
def orderingTI : TableInfo :=
  { pk := "ordering_id", hasId := true
    cols := [("ordering_id", false), ("client_id", false), ("courier_id", false),
             ("order_id", false)]
    rels := ["client", "courier", "order"]
    fks := [("client_id", "client"), ("courier_id", "courier"), ("order_id", "Order")] }

/-- Embedding of `Model.TableMap` (`model.py`): the registry of the five
table identifiers, resolving a table name to its descriptor; any other
name is unregistered. -/
def TableMap (table : String) : Option TableInfo :=
  if table = "client" then some clientTI
  else if table = "courier" then some courierTI
  else if table = "Order" then some orderTI
  else if table = "Dish" then some dishTI
  else if table = "ordering" then some orderingTI
  else none

/-- State of the backing relational store: the five tables' rows in
physical order, together with the serial-sequence counters the database
keeps for the four auto-increment primary keys (`Dish` has none). -/
structure DB where
  client : List Row
  courier : List Row
  order : List Row
  dish : List Row
  ordering : List Row
  clientSeq : Int
  courierSeq : Int
  orderSeq : Int
  orderingSeq : Int
deriving DecidableEq

/-- Rows of a table by name (an unregistered name has no rows). -/
def DB.rows (db : DB) (table : String) : List Row :=
  if table = "client" then db.client
  else if table = "courier" then db.courier
  else if table = "Order" then db.order
  else if table = "Dish" then db.dish
  else if table = "ordering" then db.ordering
  else []

/-- Replaces the rows of a table by name. -/
def DB.setRows (db : DB) (table : String) (l : List Row) : DB :=
  if table = "client" then { db with client := l }
  else if table = "courier" then { db with courier := l }
  else if table = "Order" then { db with order := l }
  else if table = "Dish" then { db with dish := l }
  else if table = "ordering" then { db with ordering := l }
  else db

/-- Current serial-sequence value of a table by name. -/
def DB.seq (db : DB) (table : String) : Int :=
  if table = "client" then db.clientSeq
  else if table = "courier" then db.courierSeq
  else if table = "Order" then db.orderSeq
  else if table = "ordering" then db.orderingSeq
  else 0

/-- Advances the serial sequence of a table by name. -/
def DB.bumpSeq (db : DB) (table : String) : DB :=
  if table = "client" then { db with clientSeq := db.clientSeq + 1 }
  else if table = "courier" then { db with courierSeq := db.courierSeq + 1 }
  else if table = "Order" then { db with orderSeq := db.orderSeq + 1 }
  else if table = "ordering" then { db with orderingSeq := db.orderingSeq + 1 }
  else db

/-- Row matcher used by `session.get`: the row whose primary-key
attribute equals the supplied key value. -/
def pkMatch (pk : String) (pk_val : Value) (r : Row) : Bool :=
  decide (getF r pk = some pk_val)

/-- Removes the first row satisfying the matcher (`session.delete` of
the fetched object). -/
def eraseFirstP (l : List Row) (p : Row → Bool) : List Row :=
  match l with
  | [] => []
  | r :: rest => if p r then rest else r :: eraseFirstP rest p

/-- Replaces the first row satisfying the matcher by a new row (the
committed mutation of the fetched object). -/
def replaceFirstP (l : List Row) (p : Row → Bool) (new : Row) : List Row :=
  match l with
  | [] => []
  | r :: rest => if p r then new :: rest else r :: replaceFirstP rest p new

/-- Typed failures of the store operations.  The first four embed the
error kinds the model layer's `(False, message)` returns carry;
`invalidField` and `relationshipWrite` embed the exceptions that escape
the model layer's `except SQLAlchemyError` handler, so on those two the
source method never returns at all — in every case no row has been
committed.  `relationshipWrite` in particular stands for what
`setattr` does on an instrumented relationship attribute (which
`hasattr` recognises): assigning a value of the store's domain to a
list relationship raises `TypeError` at the assignment itself, a
back-populated to-one relationship raises through the backref event,
and the one assignable value (null into a to-one relationship) still
fails the commit on the underlying key column's `NOT NULL` constraint —
so no such update ever reports success or writes a row. -/
inductive DbError where
  | unknownTable
  | notFound
  | dependentRowsExist
  | constraintViolation
  | invalidField
  | relationshipWrite
deriving DecidableEq, Repr

/-- Whether every non-nullable column of the table holds a non-null
value in the row (the schema's `NOT NULL` constraints). -/
def notNullOk (ti : TableInfo) (row : Row) : Bool :=
  ti.cols.all (fun c => c.2 || decide (getD row c.1 ≠ .vNull))

/-- Whether the row's primary-key value collides with no other row
(the schema's primary-key uniqueness constraint). -/
def pkUniqueOk (others : List Row) (ti : TableInfo) (row : Row) : Bool :=
  others.all (fun r => decide (getD r ti.pk ≠ getD row ti.pk))

/-- Whether one declared foreign-key edge of the row resolves to an
existing parent row (SQL semantics: a null key passes vacuously). -/
def fkSatisfied (db : DB) (edge : String × String) (row : Row) : Bool :=
  match TableMap edge.2 with
  | none => true
  | some pti =>
    match getD row edge.1 with
    | .vNull => true
    | v => (db.rows edge.2).any (fun pr => decide (getD pr pti.pk = v))

/-- All constraints the backing database checks when committing the row:
`NOT NULL`, primary-key uniqueness against the other rows, and the
declared foreign keys.  A violation surfaces as the `SQLAlchemyError`
the model layer catches. -/
def rowConstraintsOk (db : DB) (others : List Row) (ti : TableInfo) (row : Row) : Bool :=
  notNullOk ti row && pkUniqueOk others ti row &&
    ti.fks.all (fun e => fkSatisfied db e row)

/-- Row the ORM commits for `ModelClass(**data)`: every column attribute
in mapper order, the primary key holding `pkv`, any other column absent
from `data` defaulting to null. -/
def mkInsertRow (ti : TableInfo) (pkv : Value) (data : Row) : Row :=
  ti.cols.map (fun c => (c.1, if c.1 = ti.pk then pkv else getD data c.1))

namespace Model

/-- Embedding of `Model.select_all`: an unregistered table yields the
empty list (there is no failure channel in the source's return type);
otherwise all rows are returned. -/
def select_all (db : DB) (table : String) : List Row :=
  match TableMap table with
  | none => []
  | some _ => db.rows table

/-- Embedding of `Model.select_by_pk`: an unregistered table yields
`none`; otherwise `session.get` fetches the row whose primary key
equals `pk_val`, and a missing row also yields `none`. -/
def select_by_pk (db : DB) (table : String) (pk_val : Value) : Option Row :=
  match TableMap table with
  | none => none
  | some ti => (db.rows table).find? (pkMatch ti.pk pk_val)

/-- Embedding of `Model.insert`: an unregistered table fails; the
entity is built from `data` (a keyword that is no mapped attribute
raises, and a relationship keyword leaves the relational fragment
modelled here); the serial primary key is database-assigned from the
sequence exactly when the table has one and `data` does not supply it;
the commit appends the row or surfaces a constraint violation. -/
def insert (db : DB) (table : String) (data : Row) : Except DbError DB :=
  match TableMap table with
  | none => .error .unknownTable
  | some ti =>
    if data.all (fun kv => ti.attrs.contains kv.1) then
      let useSeq := ti.hasId && (getF data ti.pk).isNone
      let pkv := if useSeq then Value.vInt (db.seq table) else getD data ti.pk
      let row := mkInsertRow ti pkv data
      if rowConstraintsOk db (db.rows table) ti row then
        let db' := db.setRows table (db.rows table ++ [row])
        .ok (if useSeq then db'.bumpSeq table else db')
      else .error .constraintViolation
    else .error .invalidField

/-- Value-carrying writes of `Model.update`'s loop: `setattr(obj, key,
value)` stores the value exactly for the column attributes, and a key
`hasattr` does not recognise is skipped silently.  The remaining
recognised keys — the relationship attribute names — carry no value in
the committed row: their assignment raises instead of writing (see
`DbError.relationshipWrite`), and `update` separates that case out
before using this function. -/
def applyUpdates (ti : TableInfo) (obj : Row) (updates : Row) : Row :=
  updates.foldl
    (fun acc kv =>
      if (ti.cols.map (fun c => c.1)).contains kv.1 then setF acc kv.1 kv.2 else acc)
    obj

/-- Embedding of `Model.update`: an unregistered table fails; an empty
update mapping returns success immediately without touching the store;
otherwise the target row is fetched (failing with not-found when
absent) and the attribute loop runs: a payload key naming a
relationship attribute makes its `setattr` raise out of the method with
nothing committed (the in-memory writes of earlier recognised keys are
never flushed, so the store is unchanged — here the distinguished
`relationshipWrite` outcome); otherwise the recognised column
attributes are written, unrecognised keys are skipped silently, and the
commit replaces the row or surfaces a constraint violation. -/
def update (db : DB) (table : String) (pk_val : Value) (updates : Row) :
    Except DbError DB :=
  match TableMap table with
  | none => .error .unknownTable
  | some ti =>
    if updates.isEmpty then .ok db
    else
      match (db.rows table).find? (pkMatch ti.pk pk_val) with
      | none => .error .notFound
      | some obj =>
        if updates.any (fun kv => ti.rels.contains kv.1) then .error .relationshipWrite
        else
          let newRow := applyUpdates ti obj updates
          let others := eraseFirstP (db.rows table) (pkMatch ti.pk pk_val)
          if rowConstraintsOk db others ti newRow then
            .ok (db.setRows table (replaceFirstP (db.rows table) (pkMatch ti.pk pk_val) newRow))
          else .error .constraintViolation

/-- Embedding of `Model.has_child_records`: the fetched object's
relationship collections are consulted — `orderings` for `client`,
`courier` and `Order` (through the matching foreign-key column of the
join table), and additionally the one-to-one `dish` for `Order`.  An
unregistered table or a missing row has no children. -/
def has_child_records (db : DB) (table : String) (pk_val : Value) : Bool :=
  match TableMap table with
  | none => false
  | some ti =>
    match (db.rows table).find? (pkMatch ti.pk pk_val) with
    | none => false
    | some obj =>
      let orderingFk : Option String :=
        if table = "client" then some "client_id"
        else if table = "courier" then some "courier_id"
        else if table = "Order" then some "order_id"
        else none
      let hasOrd : Bool :=
        match orderingFk with
        | some fk => db.ordering.any (fun o => sqlEqV (getD o fk) (getD obj ti.pk))
        | none => false
      if hasOrd then true
      else if table = "Order" then
        db.dish.any (fun d => sqlEqV (getD d "dish_id") (getD obj ti.pk))
      else false

/-- Embedding of `Model.delete`: the dependent-row check runs first and
aborts the operation; then an unregistered table fails; then the target
row is fetched and removed, a missing row failing with not-found.
(The ORM cascade on the relationships never fires here: the guard has
already established that no dependent row exists.) -/
def delete (db : DB) (table : String) (pk_val : Value) : Except DbError DB :=
  if has_child_records db table pk_val then .error .dependentRowsExist
  else
    match TableMap table with
    | none => .error .unknownTable
    | some ti =>
      match (db.rows table).find? (pkMatch ti.pk pk_val) with
      | some _ => .ok (db.setRows table (eraseFirstP (db.rows table) (pkMatch ti.pk pk_val)))
      | none => .error .notFound

end Model

/-- Whether the primary-key value is an integer below the table's
sequence counter, the shape every database-assigned key has. -/
def pkBelowSeq (v : Value) (s : Int) : Bool :=
  match v with
  | .vInt k => decide (k < s)
  | _ => false

/-- Pairwise distinctness of the primary-key values along a table. -/
def nodupByPk (l : List Row) (pk : String) : Bool :=
  match l with
  | [] => true
  | r :: rest => rest.all (fun q => decide (getD q pk ≠ getD r pk)) && nodupByPk rest pk

/-- Invariants one table of a live database state satisfies: distinct
primary keys, and on a serial table every assigned key lies strictly
below the sequence counter. -/
def tblOk (l : List Row) (ti : TableInfo) (s : Int) : Bool :=
  nodupByPk l ti.pk && (!ti.hasId || l.all (fun r => pkBelowSeq (getD r ti.pk) s))

/-- Invariants of a live database state, table by table. -/
def DB.wfB (db : DB) : Bool :=
  tblOk db.client clientTI db.clientSeq && tblOk db.courier courierTI db.courierSeq &&
  tblOk db.order orderTI db.orderSeq && tblOk db.dish dishTI 0 &&
  tblOk db.ordering orderingTI db.orderingSeq

/-- Result of one run of `Controller.action_update`, paired by
`runUpdate` with the (possibly unchanged) database state. -/
inductive UpdOutcome where
  | okDone
  | rowNotFound
  | nothingChanged
  | failedReference (col : String) (ptab : String)
  | storeError (e : DbError)
deriving DecidableEq, Repr

/-- Foreign-key edges `Controller.action_update` validates for the
`ordering` table, in source order. -/
def orderingFkEdges : List (String × String) :=
  [("client_id", "client"), ("courier_id", "courier"), ("order_id", "Order")]

namespace Controller

/-- Embedding of the foreign-key validation loop of
`Controller.action_update`: the first edge whose column occurs in the
update payload and whose value resolves to no parent row, if any. -/
def firstFkViolation (db : DB) (updates : Row) : Option (String × String) :=
  orderingFkEdges.findSome? (fun e =>
    match getF updates e.1 with
    | none => none
    | some v =>
      if (Model.select_by_pk db e.2 v).isNone then some e else none)

/-- Embedding of `Controller.action_update` after the prompts: the
target row is fetched (aborting when missing), an empty payload changes
nothing, the foreign keys are validated when the table is the join
entity `ordering` (aborting before any write on a violation), and only
then is `Model.update` invoked.  The returned state is the unchanged
input state on every aborted path. -/
def runUpdate (db : DB) (table : String) (pk_val : Value) (updates : Row) :
    UpdOutcome × DB :=
  match Model.select_by_pk db table pk_val with
  | none => (.rowNotFound, db)
  | some _ =>
    if updates.isEmpty then (.nothingChanged, db)
    else
      match (if table = "ordering" then firstFkViolation db updates else none) with
      | some e => (.failedReference e.1 e.2, db)
      | none =>
        match Model.update db table pk_val updates with
        | .ok db2 => (.okDone, db2)
        | .error e => (.storeError e, db)

end Controller

/-- Result row of the courier-transport statistics query. -/
structure StatRow where
  courier_name : Value
  transport : Value
  deliveries_count : Nat
deriving DecidableEq, Repr

/-- Descending order on delivery counts (`ORDER BY deliveries_count
DESC`). -/
def statGE (a b : StatRow) : Prop :=
  b.deliveries_count ≤ a.deliveries_count

instance : DecidableRel statGE := fun a b => Nat.decLe b.deliveries_count a.deliveries_count

instance : IsTotal StatRow statGE :=
  ⟨fun a b => Nat.le_total b.deliveries_count a.deliveries_count⟩

instance : IsTrans StatRow statGE :=
  ⟨fun _ _ _ hab hbc => Nat.le_trans hbc hab⟩

/-- Filter of the query: `Courier.transport ILIKE (percent ++ pattern ++
percent)` — a case-insensitive substring match on a non-null transport;
a null transport never matches. -/
def transportMatches (pat : String) (c : Row) : Bool :=
  match getD c "transport" with
  | .vStr s => containsStr (pyLower pat) (pyLower s)
  | _ => false

/-- Delivery count of one courier: the join-table rows whose
`courier_id` equals the courier's key (`COUNT` of the matched rows of
the left outer join, zero when only the null-extended row exists). -/
def deliveriesCount (db : DB) (c : Row) : Nat :=
  (db.ordering.filter (fun o => sqlEqV (getD o "courier_id") (getD c "courier_id"))).length

/-- Aggregated row one courier's group produces. -/
def courierStat (db : DB) (c : Row) : StatRow :=
  ⟨getD c "courier_name", getD c "transport", deliveriesCount db c⟩

namespace Model

/-- Embedding of `Model.search_couriers_transport_stats`: couriers are
left-outer-joined to the join table, filtered by the case-insensitive
transport substring match, grouped by courier primary key (so, on a
state satisfying the store's key-uniqueness constraint, one group per
matching courier) with the count of matched join rows, and sorted
descending by that count.  (The wall-clock latency the source returns
alongside carries no correctness contract and is not modelled.) -/
def search_couriers_transport_stats (db : DB) (pat : String) : List StatRow :=
  List.insertionSort statGE
    ((db.courier.filter (transportMatches pat)).map (courierStat db))

end Model

/-- Sample store used by the concrete witnesses: two clients, two
couriers (one without deliveries), one order, one dish, one join row. -/
def dbS : DB :=
  { client := [[("client_id", .vInt 1), ("client_name", .vStr "Ann"), ("phone_number", .vNull)],
               [("client_id", .vInt 2), ("client_name", .vStr "Bob"), ("phone_number", .vStr "+380501112233")]]
    courier := [[("courier_id", .vInt 1), ("courier_name", .vStr "Carl"), ("transport", .vStr "Car")],
                [("courier_id", .vInt 2), ("courier_name", .vStr "Dana"), ("transport", .vStr "Bicycle")]]
    order := [[("order_id", .vInt 1), ("total_amount", .vFloat 15050 2), ("order_time", .vStr "2024-01-15 10:30:00")]]
    dish := [[("dish_id", .vInt 1), ("total_amount", .vInt 150), ("dish_price", .vInt 120)]]
    ordering := [[("ordering_id", .vInt 1), ("client_id", .vInt 1), ("courier_id", .vInt 1), ("order_id", .vInt 1)]]
    clientSeq := 3, courierSeq := 3, orderSeq := 2, orderingSeq := 2 }

example : dbS.wfB = true := by decide
example : Model.select_all dbS "foo" = [] := by decide
example : Model.insert dbS "foo" [] = .error .unknownTable := by decide
example : Model.has_child_records dbS "client" (.vInt 1) = true := by decide
example : Model.has_child_records dbS "client" (.vInt 2) = false := by decide
example : Model.delete dbS "client" (.vInt 1) = .error .dependentRowsExist := by decide
example : (Model.delete dbS "client" (.vInt 2)).isOk = true := by decide
example : Model.update dbS "client" (.vInt 9) [] = .ok dbS := by decide
example : Model.update dbS "client" (.vInt 9) [("client_name", .vStr "Z")] = .error .notFound := by decide
example :
    Controller.runUpdate dbS "ordering" (.vInt 1) [("client_id", .vInt 99)]
      = (.failedReference "client_id" "client", dbS) := by decide
example :
    Model.search_couriers_transport_stats dbS "c"
      = [⟨.vStr "Carl", .vStr "Car", 1⟩, ⟨.vStr "Dana", .vStr "Bicycle", 0⟩] := by decide

example : Model.cast_value (some "42") "integer" = .ok (.vInt 42) := by decide
example : Model.cast_value (some "abc") "integer" = .error .invalidNumber := by decide
example : Model.cast_value (some "3.5") "real" = .ok (.vFloat 35 1) := by decide
example : Model.cast_value (some "3.5") "numeric(10, 2)" = .ok (.vStr "3.5") := by decide
example : Model.cast_value (some "15/01/2024") "date" = .ok (.vStr "15/01/2024") := by decide
example : Model.parse_date "15/01/2024" = none := by decide
example : Model.parse_date "2024-01-15" = some "2024-01-15" := by decide
example : Model.parse_date "2024-01-15 10:30:00" = some "2024-01-15 10:30:00" := by decide
example : Model.parse_date "2024-02-30" = none := by decide
example : Controller.insert_field "" "varchar" true = .ok .vNull := by decide
example : Controller.insert_field "" "varchar" false = .error .nullNotAllowed := by decide

/-! Claim theorems. -/

/-- C2, counterexample: the claim says `cast("15/01/2024", dateType)`
fails with `InvalidDate`, but `Model.cast_value` passes any text cast at
a temporal type through unchanged, so this input is accepted verbatim
and no `InvalidDate` failure occurs. -/
theorem cast_temporal_no_validation_counterexample :
    Model.cast_value (some "15/01/2024") "date" = .ok (.vStr "15/01/2024") ∧
    Model.cast_value (some "15/01/2024") "date" ≠ .error .invalidDate := by
  constructor
  · decide
  · decide

/-- C2, amended: `cast` does not validate temporal text at all — every
raw text cast at a date or timestamp declared type is passed through
unchanged (so the accepted forms are returned verbatim, but so is every
other text).  The `parse_date` helper of the model layer would validate
and normalise — it rejects `15/01/2024` and keeps `2024-01-15` — but
`cast_value` never invokes it. -/
theorem cast_temporal_passthrough :
    (∀ r : String, Model.cast_value (some r) "date" = .ok (.vStr r)) ∧
    (∀ r : String, Model.cast_value (some r) "timestamp" = .ok (.vStr r)) ∧
    Model.parse_date "15/01/2024" = none ∧
    Model.parse_date "2024-01-15" = some "2024-01-15" ∧
    Model.parse_date "2024-01-15 10:30:00" = some "2024-01-15 10:30:00" := by
  refine ⟨fun r => rfl, fun r => rfl, by decide, by decide, by decide⟩

/-- C3, counterexample: the claim says a decimal-family type carrying
precision such as `numeric(10, 2)` parses the text as a float, but the
float branch of `Model.cast_value` tests the lowered type string for
exact equality with `real`, `double precision`, `numeric`, `decimal`,
so `numeric(10, 2)` misses it and the text passes through as a string
(no float is produced and no `InvalidNumber` can ever be reported). -/
theorem cast_numeric_precision_counterexample :
    Model.cast_value (some "3.5") "numeric(10, 2)" = .ok (.vStr "3.5") ∧
    Model.cast_value (some "3.5") "numeric(10, 2)" ≠ .ok (.vFloat 35 1) ∧
    Model.cast_value (some "abc") "numeric(10, 2)" ≠ .error .invalidNumber := by
  refine ⟨by decide, by decide, by decide⟩

/-- C3, amended: integer-family types (name containing `int` or
`serial`) parse the text as an integer and fail with `InvalidNumber` on
non-numeric text; the floating/decimal family parses as a float only
when the declared type string is exactly `real`, `double precision`,
`numeric` or `decimal` — a form carrying precision such as
`numeric(10, 2)` is not recognised and passes through as text. -/
theorem cast_number_families :
    Model.cast_value (some "abc") "integer" = .error .invalidNumber ∧
    Model.cast_value (some "42") "integer" = .ok (.vInt 42) ∧
    (∀ r : String, Model.cast_value (some r) "integer" =
      (match parsePyInt r with
       | some n => .ok (.vInt n)
       | none => .error .invalidNumber)) ∧
    (∀ r : String, Model.cast_value (some r) "serial" =
      (match parsePyInt r with
       | some n => .ok (.vInt n)
       | none => .error .invalidNumber)) ∧
    (∀ r : String, Model.cast_value (some r) "real" =
      (match parsePyFloat r with
       | some p => .ok (.vFloat p.1 p.2)
       | none => .error .invalidNumber)) ∧
    (∀ r : String, Model.cast_value (some r) "numeric" =
      (match parsePyFloat r with
       | some p => .ok (.vFloat p.1 p.2)
       | none => .error .invalidNumber)) ∧
    (∀ r : String, Model.cast_value (some r) "numeric(10, 2)" = .ok (.vStr r)) := by
  refine ⟨by decide, by decide, fun r => rfl, fun r => rfl, fun r => rfl, fun r => rfl,
    fun r => rfl⟩

/-- C4: an empty (hence absent) raw input yields the null value exactly
when the target column is nullable, and fails with `NullNotAllowed`
when it is not — for every declared type, and in particular for
`varchar`. -/
theorem cast_empty_null_gate :
    Controller.insert_field "" "varchar" true = .ok .vNull ∧
    Controller.insert_field "" "varchar" false = .error .nullNotAllowed ∧
    (∀ dtype : String,
      Controller.insert_field "" dtype true = .ok .vNull ∧
      Controller.insert_field "" dtype false = .error .nullNotAllowed) := by
  refine ⟨by decide, by decide, fun dtype => ⟨rfl, rfl⟩⟩

/-- C1, counterexample: the claim says `fetchAll` on an unregistered
table fails with `UnknownTable` rather than returning an empty
sequence, but `Model.select_all` (whose return type carries no failure
channel at all) answers the unregistered name `employee` with the empty
row list, and `Model.select_by_pk` answers it with `none`, on a store
that is not empty. -/
theorem unknown_table_fetchAll_counterexample :
    Model.select_all dbS "employee" = [] ∧
    Model.select_by_pk dbS "employee" (.vInt 1) = none ∧
    dbS.client ≠ [] := by
  refine ⟨by decide, by decide, by decide⟩

/-- C1, amended: on an unregistered table the three mutating operations
(`insert`, `update`, `delete`) fail with the unknown-table error, while
the two reads do not fail: `fetchAll` returns the empty sequence and
`fetchByKey` returns no row. -/
theorem unknown_table_behavior (db : DB) (t : String) (h : TableMap t = none)
    (pk_val : Value) (data updates : Row) :
    Model.select_all db t = [] ∧
    Model.select_by_pk db t pk_val = none ∧
    Model.insert db t data = .error .unknownTable ∧
    Model.update db t pk_val updates = .error .unknownTable ∧
    Model.delete db t pk_val = .error .unknownTable := by
  refine ⟨?_, ?_, ?_, ?_, ?_⟩
  · simp [Model.select_all, h]
  · simp [Model.select_by_pk, h]
  · simp [Model.insert, h]
  · simp [Model.update, h]
  · simp [Model.delete, Model.has_child_records, h]

/-- C1, witness: the amended behaviour at the concrete unregistered
name `employee` over the sample store. -/
theorem unknown_table_behavior_witness :
    TableMap "employee" = none ∧
    (Model.select_all dbS "employee" = [] ∧
     Model.select_by_pk dbS "employee" (.vInt 1) = none ∧
     Model.insert dbS "employee" [] = .error .unknownTable ∧
     Model.update dbS "employee" (.vInt 1) [] = .error .unknownTable ∧
     Model.delete dbS "employee" (.vInt 1) = .error .unknownTable) :=
  ⟨by decide, unknown_table_behavior dbS "employee" (by decide) (.vInt 1) [] []⟩

/-- C7, counterexample: the claim says an `update` aimed at a missing
row fails with `NotFound` for every payload including the empty one,
but `Model.update` returns success on an empty payload before ever
consulting the store: client 9 does not exist in the sample store, yet
the empty update reports success. -/
theorem update_empty_payload_counterexample :
    Model.select_by_pk dbS "client" (.vInt 9) = none ∧
    Model.update dbS "client" (.vInt 9) [] = .ok dbS := by
  refine ⟨by decide, by decide⟩

/-- C7, amended: an `update` with a nonempty payload aimed at a row
that does not exist fails with `NotFound`; the empty payload instead
returns success immediately without consulting the store. -/
theorem update_missing_row_notFound (db : DB) (t : String) (ti : TableInfo)
    (pk_val : Value) (updates : Row) (ht : TableMap t = some ti)
    (hne : updates ≠ []) (hmiss : Model.select_by_pk db t pk_val = none) :
    Model.update db t pk_val updates = .error .notFound := by
  have hfind : (db.rows t).find? (pkMatch ti.pk pk_val) = none := by
    simpa [Model.select_by_pk, ht] using hmiss
  have hempty : updates.isEmpty = false := by
    cases updates with
    | nil => exact absurd rfl hne
    | cons a l => rfl
  simp [Model.update, ht, hempty, hfind]

/-- C7, witness: the amended behaviour at client 9 (absent from the
sample store) with a nonempty payload. -/
theorem update_missing_row_notFound_witness :
    Model.select_by_pk dbS "client" (.vInt 9) = none ∧
    Model.update dbS "client" (.vInt 9) [("client_name", .vStr "Zed")]
      = .error .notFound :=
  ⟨by decide,
   update_missing_row_notFound dbS "client" clientTI (.vInt 9)
     [("client_name", .vStr "Zed")] (by decide) (by decide) (by decide)⟩

/-- Writing a row column by column skips exactly the keys that are not
column attributes, so the result only depends on the recognised
bindings of the payload. -/
theorem applyUpdates_filter (ti : TableInfo) (obj : Row) (updates : Row) :
    Model.applyUpdates ti obj updates =
      Model.applyUpdates ti obj
        (updates.filter (fun kv => (ti.cols.map (fun c => c.1)).contains kv.1)) := by
  induction updates generalizing obj with
  | nil => rfl
  | cons kv rest ih =>
    cases hm : (ti.cols.map (fun c => c.1)).contains kv.1 with
    | true =>
      have hstep : ∀ (o : Row) (l : List (String × Value)),
          Model.applyUpdates ti o (kv :: l)
            = Model.applyUpdates ti (setF o kv.1 kv.2) l := by
        intro o l
        unfold Model.applyUpdates
        simp only [List.foldl_cons]
        rw [hm]
        rfl
      have hfil : (kv :: rest).filter
            (fun q => (ti.cols.map (fun c => c.1)).contains q.1)
          = kv :: rest.filter (fun q => (ti.cols.map (fun c => c.1)).contains q.1) := by
        rw [List.filter_cons]
        rw [hm]
        rfl
      rw [hfil, hstep obj rest,
        hstep obj (rest.filter (fun q => (ti.cols.map (fun c => c.1)).contains q.1))]
      exact ih (setF obj kv.1 kv.2)
    | false =>
      have hstep : ∀ l : List (String × Value),
          Model.applyUpdates ti obj (kv :: l) = Model.applyUpdates ti obj l := by
        intro l
        unfold Model.applyUpdates
        simp only [List.foldl_cons]
        rw [hm]
        rfl
      have hfil : (kv :: rest).filter
            (fun q => (ti.cols.map (fun c => c.1)).contains q.1)
          = rest.filter (fun q => (ti.cols.map (fun c => c.1)).contains q.1) := by
        rw [List.filter_cons]
        rw [hm]
        rfl
      rw [hfil, hstep rest]
      exact ih obj

/-- C10: when the target row exists, no payload key names a
relationship attribute (whose `setattr` would raise out of the method
instead of writing — see `DbError.relationshipWrite`), and the
committed row satisfies the store's constraints, `update` succeeds
whatever unrecognised keys the payload carries: a key that is no
attribute of the table's mapped entity raises no error, and the written
row is exactly the one obtained from the recognised bindings alone. -/
theorem update_ignores_unknown_keys (db : DB) (t : String) (ti : TableInfo)
    (pk_val : Value) (updates : Row) (obj : Row)
    (ht : TableMap t = some ti)
    (hfind : (db.rows t).find? (pkMatch ti.pk pk_val) = some obj)
    (hne : updates ≠ [])
    (hrel : updates.all (fun kv => !ti.rels.contains kv.1) = true)
    (hc : rowConstraintsOk db (eraseFirstP (db.rows t) (pkMatch ti.pk pk_val)) ti
      (Model.applyUpdates ti obj
        (updates.filter (fun kv => (ti.cols.map (fun c => c.1)).contains kv.1)))
      = true) :
    Model.update db t pk_val updates =
      .ok (db.setRows t (replaceFirstP (db.rows t) (pkMatch ti.pk pk_val)
        (Model.applyUpdates ti obj
          (updates.filter (fun kv => (ti.cols.map (fun c => c.1)).contains kv.1))))) := by
  have hempty : updates.isEmpty = false := by
    cases updates with
    | nil => exact absurd rfl hne
    | cons a l => rfl
  have hany : updates.any (fun kv => ti.rels.contains kv.1) = false := by
    cases h : updates.any (fun kv => ti.rels.contains kv.1) with
    | false => rfl
    | true =>
      exfalso
      obtain ⟨kv, hkv, hp⟩ := List.any_eq_true.mp h
      have hall := List.all_eq_true.mp hrel kv hkv
      rw [hp] at hall
      exact Bool.false_ne_true hall
  rw [Model.update, ht]
  simp only [hempty, Bool.false_eq_true, if_false, hfind, hany]
  rw [← applyUpdates_filter] at hc ⊢
  simp [hc]

/-- C10, witness: updating client 2 of the sample store with a payload
holding the unrecognised key `bogus` next to the real column
`client_name` succeeds and writes only the recognised column. -/
theorem update_ignores_unknown_keys_witness :
    TableMap "client" = some clientTI ∧
    (dbS.rows "client").find? (pkMatch "client_id" (.vInt 2))
      = some [("client_id", .vInt 2), ("client_name", .vStr "Bob"),
              ("phone_number", .vStr "+380501112233")] ∧
    (([("bogus", .vInt 7), ("client_name", .vStr "Bobby")] : Row).all
      (fun kv => !clientTI.rels.contains kv.1)) = true ∧
    Model.update dbS "client" (.vInt 2)
        [("bogus", .vInt 7), ("client_name", .vStr "Bobby")] =
      .ok (dbS.setRows "client" (replaceFirstP (dbS.rows "client")
        (pkMatch "client_id" (.vInt 2))
        (Model.applyUpdates clientTI
          [("client_id", .vInt 2), ("client_name", .vStr "Bob"),
           ("phone_number", .vStr "+380501112233")]
          (([("bogus", .vInt 7), ("client_name", .vStr "Bobby")] : Row).filter
            (fun kv => (clientTI.cols.map (fun c => c.1)).contains kv.1))))) :=
  ⟨by decide, by decide, by decide,
   update_ignores_unknown_keys dbS "client" clientTI (.vInt 2)
     [("bogus", .vInt 7), ("client_name", .vStr "Bobby")]
     [("client_id", .vInt 2), ("client_name", .vStr "Bob"),
      ("phone_number", .vStr "+380501112233")]
     (by decide) (by decide) (by decide) (by decide) (by decide)⟩

/-- Characterisation of the validation loop: when scanning a list of
foreign-key edges reports a violation, the reported pair is one of the
scanned edges, its column occurs in the payload, and the payload's
value for it resolves to no parent row. -/
theorem fkScan_some_spec (db : DB) (updates : Row) :
    ∀ (edges : List (String × String)) (col ptab : String),
      (edges.findSome? (fun e =>
        match getF updates e.1 with
        | none => none
        | some v =>
          if (Model.select_by_pk db e.2 v).isNone then some e else none))
        = some (col, ptab) →
      (col, ptab) ∈ edges ∧
      ∃ v, getF updates col = some v ∧ Model.select_by_pk db ptab v = none := by
  intro edges
  induction edges with
  | nil => intro col ptab h; simp [List.findSome?] at h
  | cons e rest ih =>
    obtain ⟨c, p⟩ := e
    intro col ptab h
    cases he : getF updates c with
    | none =>
      rw [List.findSome?_cons] at h
      simp only [he] at h
      obtain ⟨hm, hv⟩ := ih col ptab h
      exact ⟨List.mem_cons_of_mem _ hm, hv⟩
    | some v =>
      rw [List.findSome?_cons] at h
      simp only [he] at h
      cases hn : (Model.select_by_pk db p v).isNone with
      | true =>
        simp only [hn, if_true] at h
        obtain ⟨hc, hp⟩ := Prod.mk.injEq .. ▸ Option.some.inj h
        subst hc; subst hp
        exact ⟨List.mem_cons_self _ _, v, he, Option.isNone_iff_eq_none.mp hn⟩
      | false =>
        simp only [hn, Bool.false_eq_true, if_false] at h
        obtain ⟨hm, hv⟩ := ih col ptab h
        exact ⟨List.mem_cons_of_mem _ hm, hv⟩

/-- C6: an update of an existing `ordering` row whose payload carries a
foreign-key column that resolves to no parent row aborts with the
failed-reference error naming that column and its referenced table, and
the store state is returned unchanged — `Model.update` is never
reached, so no partial write occurs. -/
theorem ordering_update_fk_guard (db : DB) (pk_val : Value) (updates : Row)
    (col ptab : String)
    (hrow : (Model.select_by_pk db "ordering" pk_val).isSome = true)
    (hne : updates ≠ [])
    (hviol : Controller.firstFkViolation db updates = some (col, ptab)) :
    (col, ptab) ∈ orderingFkEdges ∧
    (∃ v, getF updates col = some v ∧ Model.select_by_pk db ptab v = none) ∧
    Controller.runUpdate db "ordering" pk_val updates
      = (.failedReference col ptab, db) := by
  obtain ⟨hm, hv⟩ := fkScan_some_spec db updates orderingFkEdges col ptab
    (by
      have : Controller.firstFkViolation db updates
          = orderingFkEdges.findSome? (fun e =>
              match getF updates e.1 with
              | none => none
              | some v =>
                if (Model.select_by_pk db e.2 v).isNone then some e else none) := rfl
      rw [← this]; exact hviol)
  obtain ⟨row0, hr⟩ := Option.isSome_iff_exists.mp hrow
  have hempty : updates.isEmpty = false := by
    cases updates with
    | nil => exact absurd rfl hne
    | cons a l => rfl
  refine ⟨hm, hv, ?_⟩
  simp [Controller.runUpdate, hr, hempty, hviol]

/-- C6, witness: updating the sample store's ordering row 1 with
`client_id = 99` (no such client) fails with the reference error naming
`client_id` and `client`, and leaves the store unchanged. -/
theorem ordering_update_fk_guard_witness :
    (Model.select_by_pk dbS "ordering" (.vInt 1)).isSome = true ∧
    Controller.firstFkViolation dbS [("client_id", .vInt 99)]
      = some ("client_id", "client") ∧
    ("client_id", "client") ∈ orderingFkEdges ∧
    (∃ v, getF [("client_id", .vInt 99)] "client_id" = some v ∧
      Model.select_by_pk dbS "client" v = none) ∧
    Controller.runUpdate dbS "ordering" (.vInt 1) [("client_id", .vInt 99)]
      = (.failedReference "client_id" "client", dbS) :=
  ⟨by decide, by decide,
   (ordering_update_fk_guard dbS (.vInt 1) [("client_id", .vInt 99)]
     "client_id" "client" (by decide) (by decide) (by decide)).1,
   (ordering_update_fk_guard dbS (.vInt 1) [("client_id", .vInt 99)]
     "client_id" "client" (by decide) (by decide) (by decide)).2.1,
   (ordering_update_fk_guard dbS (.vInt 1) [("client_id", .vInt 99)]
     "client_id" "client" (by decide) (by decide) (by decide)).2.2⟩

/-- Conjunction elimination for boolean equalities. -/
theorem bool_and_elim {a b : Bool} (h : (a && b) = true) : a = true ∧ b = true := by
  simp only [Bool.and_eq_true] at h
  exact h

/-- Only the five registered names resolve in the table registry. -/
theorem tableMap_cases {t : String} {ti : TableInfo} (h : TableMap t = some ti) :
    t = "client" ∨ t = "courier" ∨ t = "Order" ∨ t = "Dish" ∨ t = "ordering" := by
  by_cases h1 : t = "client"
  · exact Or.inl h1
  by_cases h2 : t = "courier"
  · exact Or.inr (Or.inl h2)
  by_cases h3 : t = "Order"
  · exact Or.inr (Or.inr (Or.inl h3))
  by_cases h4 : t = "Dish"
  · exact Or.inr (Or.inr (Or.inr (Or.inl h4)))
  by_cases h5 : t = "ordering"
  · exact Or.inr (Or.inr (Or.inr (Or.inr h5)))
  exfalso
  simp [TableMap, h1, h2, h3, h4, h5] at h

/-- Replacing a registered table's rows is observed by the same table's
read. -/
theorem rows_setRows (db : DB) {t : String} {ti : TableInfo}
    (h : TableMap t = some ti) (l : List Row) : (DB.setRows db t l).rows t = l := by
  rcases tableMap_cases h with h' | h' | h' | h' | h' <;> subst h' <;> rfl

/-- A wellformed store has pairwise-distinct primary keys in every
registered table. -/
theorem wf_nodup {db : DB} {t : String} {ti : TableInfo} (hwf : db.wfB = true)
    (h : TableMap t = some ti) : nodupByPk (db.rows t) ti.pk = true := by
  have hw : (tblOk db.client clientTI db.clientSeq &&
      tblOk db.courier courierTI db.courierSeq &&
      tblOk db.order orderTI db.orderSeq && tblOk db.dish dishTI 0 &&
      tblOk db.ordering orderingTI db.orderingSeq) = true := hwf
  simp only [Bool.and_eq_true] at hw
  obtain ⟨⟨⟨⟨hc, hco⟩, ho⟩, hd⟩, hor⟩ := hw
  rcases tableMap_cases h with h' | h' | h' | h' | h' <;> subst h'
  · have hti : clientTI = ti := by simpa [TableMap] using h
    subst hti
    exact (bool_and_elim hc).1
  · have hti : courierTI = ti := by simpa [TableMap] using h
    subst hti
    exact (bool_and_elim hco).1
  · have hti : orderTI = ti := by simpa [TableMap] using h
    subst hti
    exact (bool_and_elim ho).1
  · have hti : dishTI = ti := by simpa [TableMap] using h
    subst hti
    exact (bool_and_elim hd).1
  · have hti : orderingTI = ti := by simpa [TableMap] using h
    subst hti
    exact (bool_and_elim hor).1

/-- A key found in the mapping reads back as that value under the
null-defaulting read. -/
theorem getD_of_getF {r : Row} {k : String} {v : Value} (h : getF r k = some v) :
    getD r k = v := by simp [getD, h]

/-- The row matcher succeeds exactly on rows whose primary-key
attribute holds the key value. -/
theorem pkMatch_eq_true {pk : String} {pv : Value} {r : Row} :
    pkMatch pk pv r = true ↔ getF r pk = some pv := by simp [pkMatch]

/-- Erasing the matched row from a table with pairwise-distinct primary
keys leaves no row matching the key. -/
theorem find?_eraseFirstP_none (pk : String) (pv : Value) :
    ∀ l : List Row, nodupByPk l pk = true →
      ∀ obj, l.find? (pkMatch pk pv) = some obj →
        (eraseFirstP l (pkMatch pk pv)).find? (pkMatch pk pv) = none := by
  intro l
  induction l with
  | nil =>
    intro _ obj h
    simp at h
  | cons r rest ih =>
    intro hnd obj hf
    have hnd' : (rest.all (fun q => decide (getD q pk ≠ getD r pk)) &&
        nodupByPk rest pk) = true := hnd
    have hnds := bool_and_elim hnd'
    cases hpr : pkMatch pk pv r with
    | true =>
      have herase : eraseFirstP (r :: rest) (pkMatch pk pv) = rest := by
        simp [eraseFirstP, hpr]
      rw [herase]
      apply List.find?_eq_none.mpr
      intro x hx hpx
      have hgx : getF x pk = some pv := pkMatch_eq_true.mp hpx
      have hgr : getF r pk = some pv := pkMatch_eq_true.mp hpr
      have hne := List.all_eq_true.mp hnds.1 x hx
      exact (of_decide_eq_true hne) (by rw [getD_of_getF hgx, getD_of_getF hgr])
    | false =>
      have herase : eraseFirstP (r :: rest) (pkMatch pk pv)
          = r :: eraseFirstP rest (pkMatch pk pv) := by
        simp [eraseFirstP, hpr]
      rw [herase]
      have hfr : (r :: rest).find? (pkMatch pk pv) = rest.find? (pkMatch pk pv) := by
        simp [List.find?_cons, hpr]
      rw [hfr] at hf
      have hrec := ih hnds.2 obj hf
      simp [List.find?_cons, hpr, hrec]

/-- C5: over a wellformed store, `delete` runs the dependent-row check
first: when dependent rows exist along the declared edges the operation
fails with the dependent-rows error and the target row (which the check
itself fetched) is still observable; when no dependent row exists and
the target row exists, the delete succeeds and fetching the key
afterwards finds nothing. -/
theorem delete_dependent_guard (db : DB) (t : String) (pk_val : Value)
    (hwf : db.wfB = true) :
    (Model.has_child_records db t pk_val = true →
      Model.delete db t pk_val = .error .dependentRowsExist ∧
      (Model.select_by_pk db t pk_val).isSome = true) ∧
    (Model.has_child_records db t pk_val = false →
      (Model.select_by_pk db t pk_val).isSome = true →
      ∃ db2, Model.delete db t pk_val = .ok db2 ∧
        Model.select_by_pk db2 t pk_val = none) := by
  constructor
  · intro hch
    refine ⟨by simp [Model.delete, hch], ?_⟩
    cases hTM : TableMap t with
    | none =>
      exfalso
      unfold Model.has_child_records at hch
      rw [hTM] at hch
      simp at hch
    | some ti =>
      cases hf : (db.rows t).find? (pkMatch ti.pk pk_val) with
      | none =>
        exfalso
        unfold Model.has_child_records at hch
        rw [hTM] at hch
        simp only [hf] at hch
        exact Bool.false_ne_true hch
      | some obj => simp [Model.select_by_pk, hTM, hf]
  · intro hch hsome
    cases hTM : TableMap t with
    | none => simp [Model.select_by_pk, hTM] at hsome
    | some ti =>
      simp only [Model.select_by_pk, hTM] at hsome
      cases hf : (db.rows t).find? (pkMatch ti.pk pk_val) with
      | none => rw [hf] at hsome; simp at hsome
      | some obj =>
        refine ⟨db.setRows t (eraseFirstP (db.rows t) (pkMatch ti.pk pk_val)), ?_, ?_⟩
        · simp [Model.delete, hch, hTM, hf]
        · have hrows := rows_setRows db hTM (eraseFirstP (db.rows t) (pkMatch ti.pk pk_val))
          simp only [Model.select_by_pk, hTM, hrows]
          exact find?_eraseFirstP_none ti.pk pk_val (db.rows t) (wf_nodup hwf hTM) obj hf

/-- C5, witness: in the sample store client 1 is referenced by an
ordering row, so its delete aborts with the dependent-rows error while
the row stays fetchable; client 2 has no dependent row, so its delete
succeeds and the key afterwards fetches nothing. -/
theorem delete_dependent_guard_witness :
    dbS.wfB = true ∧
    Model.has_child_records dbS "client" (.vInt 1) = true ∧
    (Model.delete dbS "client" (.vInt 1) = .error .dependentRowsExist ∧
      (Model.select_by_pk dbS "client" (.vInt 1)).isSome = true) ∧
    Model.has_child_records dbS "client" (.vInt 2) = false ∧
    (∃ db2, Model.delete dbS "client" (.vInt 2) = .ok db2 ∧
      Model.select_by_pk db2 "client" (.vInt 2) = none) :=
  ⟨by decide, by decide,
   (delete_dependent_guard dbS "client" (.vInt 1) (by decide)).1 (by decide),
   by decide,
   (delete_dependent_guard dbS "client" (.vInt 2) (by decide)).2 (by decide) (by decide)⟩

/-- Pairwise distinctness of the keys of a payload mapping (a Python
dict cannot bind one key twice). -/
def nodupKeys (r : Row) : Bool :=
  match r with
  | [] => true
  | kv :: rest => rest.all (fun q => decide (q.1 ≠ kv.1)) && nodupKeys rest

/-- In a mapping with distinct keys every binding is read back. -/
theorem getF_of_mem {data : Row} (hnd : nodupKeys data = true) :
    ∀ kv ∈ data, getF data kv.1 = some kv.2 := by
  induction data with
  | nil =>
    intro kv h
    simp at h
  | cons a rest ih =>
    intro kv hkv
    have hnd' : (rest.all (fun q => decide (q.1 ≠ a.1)) && nodupKeys rest) = true := hnd
    have hs := bool_and_elim hnd'
    rcases List.mem_cons.mp hkv with h | h
    · subst h
      simp [getF]
    · have hne : kv.1 ≠ a.1 := of_decide_eq_true (List.all_eq_true.mp hs.1 kv h)
      have hstep : getF (a :: rest) kv.1 = getF rest kv.1 := by
        simp [getF, Ne.symm hne]
      rw [hstep]
      exact ih hs.2 kv h

/-- Reading a column of a row built columnwise from a value function. -/
theorem getF_cols_map (cols : List (String × Bool)) (f : String → Value) (k : String)
    (hk : k ∈ cols.map (fun c => c.1)) :
    getF (cols.map (fun c => (c.1, f c.1))) k = some (f k) := by
  induction cols with
  | nil => simp at hk
  | cons c rest ih =>
    by_cases hc : c.1 = k
    · simp [getF, hc]
    · have hk' : k ∈ rest.map (fun q => q.1) := by
        simp only [List.map_cons, List.mem_cons] at hk
        rcases hk with h | h
        · exact absurd h.symm hc
        · exact h
      simp [getF, hc, ih hk']

/-- Skipping a prefix of rows none of which matches, a search continues
in the remainder. -/
theorem find?_append_none {l1 l2 : List Row} {p : Row → Bool}
    (h : ∀ r ∈ l1, p r = false) : (l1 ++ l2).find? p = l2.find? p := by
  induction l1 with
  | nil => rfl
  | cons r rest ih =>
    have hr := h r (List.mem_cons_self r rest)
    simp only [List.cons_append, List.find?_cons, hr]
    exact ih (fun x hx => h x (List.mem_cons_of_mem r hx))

/-- Advancing a serial sequence leaves every table's rows unchanged. -/
theorem rows_bumpSeq (db : DB) (t2 t : String) :
    (db.bumpSeq t2).rows t = db.rows t := by
  unfold DB.bumpSeq DB.rows
  split_ifs <;> rfl

/-- Every registered table's descriptor lists its primary key among its
column attributes. -/
theorem tableMap_pk_mem {t : String} {ti : TableInfo} (h : TableMap t = some ti) :
    ti.pk ∈ ti.cols.map (fun c => c.1) := by
  rcases tableMap_cases h with h' | h' | h' | h' | h'
  all_goals subst h'
  · have hti : clientTI = ti := by simpa [TableMap] using h
    subst hti; decide
  · have hti : courierTI = ti := by simpa [TableMap] using h
    subst hti; decide
  · have hti : orderTI = ti := by simpa [TableMap] using h
    subst hti; decide
  · have hti : dishTI = ti := by simpa [TableMap] using h
    subst hti; decide
  · have hti : orderingTI = ti := by simpa [TableMap] using h
    subst hti; decide

/-- On a wellformed store, every assigned key of a serial table lies
strictly below the table's sequence counter. -/
theorem wf_belowSeq {db : DB} {t : String} {ti : TableInfo} (hwf : db.wfB = true)
    (h : TableMap t = some ti) (hid : ti.hasId = true) :
    (db.rows t).all (fun r => pkBelowSeq (getD r ti.pk) (db.seq t)) = true := by
  have hw : (tblOk db.client clientTI db.clientSeq &&
      tblOk db.courier courierTI db.courierSeq &&
      tblOk db.order orderTI db.orderSeq && tblOk db.dish dishTI 0 &&
      tblOk db.ordering orderingTI db.orderingSeq) = true := hwf
  simp only [Bool.and_eq_true] at hw
  obtain ⟨⟨⟨⟨hc, hco⟩, ho⟩, hd⟩, hor⟩ := hw
  rcases tableMap_cases h with h' | h' | h' | h' | h'
  all_goals subst h'
  · have hti : clientTI = ti := by simpa [TableMap] using h
    subst hti
    have h2 := (bool_and_elim hc).2
    simp only [show (!clientTI.hasId) = false from rfl, Bool.false_or] at h2
    exact h2
  · have hti : courierTI = ti := by simpa [TableMap] using h
    subst hti
    have h2 := (bool_and_elim hco).2
    simp only [show (!courierTI.hasId) = false from rfl, Bool.false_or] at h2
    exact h2
  · have hti : orderTI = ti := by simpa [TableMap] using h
    subst hti
    have h2 := (bool_and_elim ho).2
    simp only [show (!orderTI.hasId) = false from rfl, Bool.false_or] at h2
    exact h2
  · have hti : dishTI = ti := by simpa [TableMap] using h
    subst hti
    exact absurd hid (by decide)
  · have hti : orderingTI = ti := by simpa [TableMap] using h
    subst hti
    have h2 := (bool_and_elim hor).2
    simp only [show (!orderingTI.hasId) = false from rfl, Bool.false_or] at h2
    exact h2

/-- C9: over a wellformed store, inserting a valid payload into a table
with a serial primary key (payload keys are columns of the table, the
key column itself omitted, distinct keys, and the committed row passing
the store's constraints) succeeds; fetching the assigned key back
returns a row whose non-identity fields equal the inserted payload
exactly and whose identity field holds the store-assigned key, and that
key is distinct from the key of every row previously in the table. -/
theorem insert_roundtrip (db : DB) (t : String) (ti : TableInfo) (data : Row)
    (ht : TableMap t = some ti) (hid : ti.hasId = true) (hwf : db.wfB = true)
    (hnopk : getF data ti.pk = none)
    (hkeys : data.all (fun kv => (ti.cols.map (fun c => c.1)).contains kv.1) = true)
    (hnd : nodupKeys data = true)
    (hcon : rowConstraintsOk db (db.rows t) ti
      (mkInsertRow ti (.vInt (db.seq t)) data) = true) :
    ∃ db2, Model.insert db t data = .ok db2 ∧
      ∃ newRow, Model.select_by_pk db2 t (.vInt (db.seq t)) = some newRow ∧
        getF newRow ti.pk = some (.vInt (db.seq t)) ∧
        (∀ kv ∈ data, getF newRow kv.1 = some kv.2) ∧
        (∀ r ∈ db.rows t, getF r ti.pk ≠ some (.vInt (db.seq t))) := by
  have hfresh : ∀ r ∈ db.rows t, getF r ti.pk ≠ some (.vInt (db.seq t)) := by
    intro r hr hEq
    have hb := List.all_eq_true.mp (wf_belowSeq hwf ht hid) r hr
    rw [getD_of_getF hEq] at hb
    exact absurd (of_decide_eq_true hb) (lt_irrefl _)
  have hno : ∀ r ∈ db.rows t, pkMatch ti.pk (.vInt (db.seq t)) r = false := by
    intro r hr
    cases hp : pkMatch ti.pk (.vInt (db.seq t)) r with
    | false => rfl
    | true => exact absurd (pkMatch_eq_true.mp hp) (hfresh r hr)
  have hgetpk : getF (mkInsertRow ti (.vInt (db.seq t)) data) ti.pk
      = some (.vInt (db.seq t)) := by
    have h0 := getF_cols_map ti.cols
      (fun x => if x = ti.pk then Value.vInt (db.seq t) else getD data x) ti.pk
      (tableMap_pk_mem ht)
    simpa using h0
  have hall : data.all (fun kv => ti.attrs.contains kv.1) = true := by
    apply List.all_eq_true.mpr
    intro kv hkv
    have h1 := List.all_eq_true.mp hkeys kv hkv
    have hm : kv.1 ∈ ti.cols.map (fun c => c.1) := by simpa using h1
    have hm2 : kv.1 ∈ ti.attrs := by
      unfold TableInfo.attrs
      exact List.mem_append_left _ hm
    simpa using hm2
  refine ⟨(db.setRows t (db.rows t ++ [mkInsertRow ti (.vInt (db.seq t)) data])).bumpSeq t,
    ?_, ?_⟩
  · unfold Model.insert
    rw [ht]
    simp only [hall, if_true, hid, hnopk, Option.isNone_none, Bool.and_self, if_true,
      hcon, ite_true]
  · refine ⟨mkInsertRow ti (.vInt (db.seq t)) data, ?_, hgetpk, ?_, hfresh⟩
    · have hrows :
          ((db.setRows t (db.rows t ++ [mkInsertRow ti (.vInt (db.seq t)) data])).bumpSeq
            t).rows t = db.rows t ++ [mkInsertRow ti (.vInt (db.seq t)) data] := by
        rw [rows_bumpSeq]
        exact rows_setRows db ht _
      simp only [Model.select_by_pk, hrows, ht]
      rw [find?_append_none hno]
      have hp : pkMatch ti.pk (.vInt (db.seq t))
          (mkInsertRow ti (.vInt (db.seq t)) data) = true :=
        pkMatch_eq_true.mpr hgetpk
      simp [List.find?_cons, hp]
    · intro kv hkv
      have hmk : kv.1 ∈ ti.cols.map (fun c => c.1) := by
        simpa using List.all_eq_true.mp hkeys kv hkv
      have hthis : getF (mkInsertRow ti (.vInt (db.seq t)) data) kv.1
          = some (if kv.1 = ti.pk then Value.vInt (db.seq t) else getD data kv.1) :=
        getF_cols_map ti.cols
          (fun x => if x = ti.pk then Value.vInt (db.seq t) else getD data x) kv.1 hmk
      have hgd : getF data kv.1 = some kv.2 := getF_of_mem hnd kv hkv
      have hne : kv.1 ≠ ti.pk := by
        intro hEq
        rw [hEq, hnopk] at hgd
        exact Option.noConfusion hgd
      rw [hthis]
      simp only [hne, if_false]
      rw [getD_of_getF hgd]

/-- C9, witness: inserting a new client payload into the sample store
succeeds; client 3 (the sequence value) fetches back with exactly the
inserted name and phone and a key distinct from the existing rows. -/
theorem insert_roundtrip_witness :
    TableMap "client" = some clientTI ∧ clientTI.hasId = true ∧ dbS.wfB = true ∧
    getF [("client_name", .vStr "Eve"), ("phone_number", .vNull)] clientTI.pk = none ∧
    (∃ db2, Model.insert dbS "client"
        [("client_name", .vStr "Eve"), ("phone_number", .vNull)] = .ok db2 ∧
      ∃ newRow, Model.select_by_pk db2 "client" (.vInt (dbS.seq "client"))
          = some newRow ∧
        getF newRow clientTI.pk = some (.vInt (dbS.seq "client")) ∧
        (∀ kv ∈ ([("client_name", .vStr "Eve"), ("phone_number", .vNull)] : Row),
          getF newRow kv.1 = some kv.2) ∧
        (∀ r ∈ dbS.rows "client",
          getF r clientTI.pk ≠ some (.vInt (dbS.seq "client")))) :=
  ⟨by decide, by decide, by decide, by decide,
   insert_roundtrip dbS "client" clientTI
     [("client_name", .vStr "Eve"), ("phone_number", .vNull)]
     (by decide) (by decide) (by decide) (by decide) (by decide) (by decide) (by decide)⟩

/-- C8: over a wellformed store the courier-transport statistics result
is, up to the descending ordering, exactly one row per courier whose
transport matches the pattern as a case-insensitive substring — so a
courier with zero deliveries still appears, with count 0 — each row
carrying that courier's delivery count (the number of join-table rows
referencing the courier), and the returned list is sorted descending by
delivery count. -/
theorem courier_stats_spec (db : DB) (pat : String) (hwf : db.wfB = true) :
    List.Perm (Model.search_couriers_transport_stats db pat)
      ((db.courier.filter (transportMatches pat)).map (courierStat db)) ∧
    List.Sorted statGE (Model.search_couriers_transport_stats db pat) ∧
    (∀ c ∈ db.courier, transportMatches pat c = true →
      courierStat db c ∈ Model.search_couriers_transport_stats db pat) ∧
    (∀ s ∈ Model.search_couriers_transport_stats db pat,
      ∃ c ∈ db.courier, transportMatches pat c = true ∧ s = courierStat db c ∧
        s.deliveries_count = deliveriesCount db c) := by
  have hperm : List.Perm (Model.search_couriers_transport_stats db pat)
      ((db.courier.filter (transportMatches pat)).map (courierStat db)) :=
    List.perm_insertionSort statGE _
  refine ⟨hperm, List.sorted_insertionSort statGE _, ?_, ?_⟩
  · intro c hc hm
    have h1 : courierStat db c
        ∈ (db.courier.filter (transportMatches pat)).map (courierStat db) :=
      List.mem_map_of_mem _ (List.mem_filter.mpr ⟨hc, hm⟩)
    exact hperm.mem_iff.mpr h1
  · intro s hs
    have h1 : s ∈ (db.courier.filter (transportMatches pat)).map (courierStat db) :=
      hperm.subset hs
    obtain ⟨c, hcf, hEq⟩ := List.mem_map.mp h1
    obtain ⟨hcmem, hcmatch⟩ := List.mem_filter.mp hcf
    exact ⟨c, hcmem, hcmatch, hEq.symm, by rw [← hEq]; rfl⟩

/-- C8, witness: the query over the sample store with pattern `c`
(matching both couriers case-insensitively, one of which has zero
deliveries) is a permutation of the per-courier statistics rows and is
sorted descending by delivery count. -/
theorem courier_stats_spec_witness :
    dbS.wfB = true ∧
    List.Perm (Model.search_couriers_transport_stats dbS "c")
      ((dbS.courier.filter (transportMatches "c")).map (courierStat dbS)) ∧
    List.Sorted statGE (Model.search_couriers_transport_stats dbS "c") :=
  ⟨by decide, (courier_stats_spec dbS "c" (by decide)).1,
   (courier_stats_spec dbS "c" (by decide)).2.1⟩

example :
    Model.update dbS "client" (.vInt 2) [("orderings", .vInt 5)]
      = .error .relationshipWrite := by decide
